import Mathlib

/-!
Verification of the PixelPerfect client-side image pipeline.

Geometry is modelled over `ℚ`: the source computes with IEEE doubles, but all
claims under study are either exact rational identities (ratios, centring,
clamping) or tolerance statements that the exact rational identity implies.
The decimal literal `0.8` of the source is the rational `4/5`.

Sources embedded:
  * `src/components/CropOverlay.tsx` — crop-region initialisation and the
    pointer-move drag handler (`initCrop`, `handlePointerMove`);
  * `src/services/imageProcessor.ts` (in `src/components/Icon.tsx` bundle) —
    `processImage` (source-rectangle resolution and destination sizing),
    `expandImageCanvas`;
  * `src/components/BrushOverlay.tsx` — the brush stroke state machine;
  * `src/App.tsx` + `src/constants.ts` — the upload boundary.
-/

/-- Unit tag of a crop area, `'px' | '%'` in `types.ts`. -/
inductive CropUnit where
  | px
  | pct
deriving DecidableEq, Repr

/-- `CropArea` from `types.ts`: `{x, y, width, height, unit}`. -/
structure CropArea where
  x : ℚ
  y : ℚ
  width : ℚ
  height : ℚ
  unit : CropUnit
deriving DecidableEq, Repr

/-- Snapshot taken by `handlePointerDown` in `CropOverlay.tsx`
(`startPos.current = {x, y, cx, cy, cw, ch}`). -/
structure StartPos where
  x : ℚ
  y : ℚ
  cx : ℚ
  cy : ℚ
  cw : ℚ
  ch : ℚ
deriving DecidableEq, Repr

/-- JavaScript `String.prototype.includes` restricted to a single character,
as used on the drag-handle string (`dragHandle?.includes('e')`). -/
def includesChar (s : String) (c : Char) : Bool :=
  s.data.contains c

/-- Crop initialisation effect of `CropOverlay.tsx` (lines 21–43): 80 % of the
container, ratio-constrained when `aspectRatio ≠ 0`, centred. -/
def initCrop (width height aspectRatio : ℚ) : CropArea :=
  let initW := width * (4 / 5)
  let initH := height * (4 / 5)
  let dims :=
    if aspectRatio ≠ 0 then
      if width / height > aspectRatio then
        (height * (4 / 5) * aspectRatio, height * (4 / 5))
      else
        (width * (4 / 5), width * (4 / 5) / aspectRatio)
    else
      (initW, initH)
  { x := (width - dims.1) / 2
    y := (height - dims.2) / 2
    width := dims.1
    height := dims.2
    unit := CropUnit.px }

/-- `handlePointerMove` of `CropOverlay.tsx` (lines 61–96).  `width`/`height`
are the container, `crop` the current region, `start` the drag-start snapshot,
`clientX`/`clientY` the pointer.  Returns the next crop region. -/
def handlePointerMove (width height aspectRatio : ℚ) (isDragging : Bool)
    (dragHandle : String) (start : StartPos) (crop : CropArea)
    (clientX clientY : ℚ) : CropArea :=
  if !isDragging then crop
  else
    let dx := clientX - start.x
    let dy := clientY - start.y
    if dragHandle = "move" then
      { crop with
        x := max 0 (min (width - crop.width) (start.cx + dx))
        y := max 0 (min (height - crop.height) (start.cy + dy)) }
    else
      let n1 :=
        if includesChar dragHandle 'e' then
          { crop with width := max 50 (min (width - crop.x) (start.cw + dx)) }
        else crop
      let n2 :=
        if includesChar dragHandle 's' then
          { n1 with height := max 50 (min (height - crop.y) (start.ch + dy)) }
        else n1
      if aspectRatio ≠ 0 then
        let n3 :=
          if includesChar dragHandle 'e' then
            { n2 with height := n2.width / aspectRatio }
          else n2
        let n4 :=
          if includesChar dragHandle 's' then
            { n3 with width := n3.height * aspectRatio }
          else n3
        let n5 :=
          if n4.width + n4.x > width then
            { n4 with width := width - n4.x, height := (width - n4.x) / aspectRatio }
          else n4
        let n6 :=
          if n5.height + n5.y > height then
            { n5 with height := height - n5.y, width := (height - n5.y) * aspectRatio }
          else n5
        n6
      else n2

/-- Proof scaffolding: the net effect of the ratio-locked `se` resize path of
`handlePointerMove` on a region, as a function of the clamped width `w1`. -/
def seRatioPath (W H r : ℚ) (crop : CropArea) (w1 : ℚ) : CropArea :=
  let a :=
    if w1 + crop.x > W then
      { crop with width := W - crop.x, height := (W - crop.x) / r }
    else
      { crop with width := w1, height := w1 / r }
  if a.height + a.y > H then
    { a with height := H - a.y, width := (H - a.y) * r }
  else a

lemma includesChar_se_e : includesChar "se" 'e' = true := by decide

lemma includesChar_se_s : includesChar "se" 's' = true := by decide

lemma hpm_move_eq (W H r : ℚ) (start : StartPos) (crop : CropArea)
    (clientX clientY : ℚ) :
    handlePointerMove W H r true "move" start crop clientX clientY =
      { crop with
        x := max 0 (min (W - crop.width) (start.cx + (clientX - start.x)))
        y := max 0 (min (H - crop.height) (start.cy + (clientY - start.y))) } := by
  simp [handlePointerMove]

lemma hpm_se_ratio_eq (W H r : ℚ) (hr : r ≠ 0) (start : StartPos)
    (crop : CropArea) (clientX clientY : ℚ) :
    handlePointerMove W H r true "se" start crop clientX clientY =
      seRatioPath W H r crop
        (max 50 (min (W - crop.x) (start.cw + (clientX - start.x)))) := by
  have hcancel : ∀ a : ℚ, a / r * r = a := fun a => div_mul_cancel₀ a hr
  simp only [handlePointerMove, seRatioPath, includesChar_se_e, includesChar_se_s,
    Bool.not_true, Bool.false_eq_true, if_false, if_true]
  rw [if_neg (by decide : ¬ ("se" = "move"))]
  simp only [if_pos hr]
  simp [hcancel]

lemma hpm_se_free_eq (W H : ℚ) (start : StartPos) (crop : CropArea)
    (clientX clientY : ℚ) :
    handlePointerMove W H 0 true "se" start crop clientX clientY =
      { crop with
        width := max 50 (min (W - crop.x) (start.cw + (clientX - start.x)))
        height := max 50 (min (H - crop.y) (start.ch + (clientY - start.y))) } := by
  simp only [handlePointerMove, includesChar_se_e, includesChar_se_s,
    Bool.not_true, Bool.false_eq_true, if_false, if_true]
  rw [if_neg (by decide : ¬ ("se" = "move"))]
  simp

lemma seRatioPath_props (W H r : ℚ) (crop : CropArea) (w1 : ℚ) (hr : 0 < r)
    (hw1le : w1 ≤ W - crop.x) (hw1ge : (50 : ℚ) ≤ w1) (hHy : (50 : ℚ) ≤ H - crop.y) :
    (seRatioPath W H r crop w1).width / (seRatioPath W H r crop w1).height = r ∧
    (seRatioPath W H r crop w1).x = crop.x ∧
    (seRatioPath W H r crop w1).y = crop.y ∧
    (seRatioPath W H r crop w1).x + (seRatioPath W H r crop w1).width ≤ W ∧
    (seRatioPath W H r crop w1).y + (seRatioPath W H r crop w1).height ≤ H := by
  have hw1ne : w1 ≠ 0 := by positivity
  have hHyne : H - crop.y ≠ 0 := by positivity
  have hnot1 : ¬ (w1 + crop.x > W) := by
    simp only [not_lt]
    linarith
  unfold seRatioPath
  simp only [if_neg hnot1]
  by_cases h2 : w1 / r + crop.y > H
  · rw [if_pos h2]
    dsimp only
    have hlt : (H - crop.y) * r < w1 := by
      have h3 : H - crop.y < w1 / r := by linarith
      have h4 := (lt_div_iff₀ hr).mp h3
      linarith
    exact ⟨mul_div_cancel_left₀ r hHyne, rfl, rfl, by linarith, by linarith⟩
  · rw [if_neg h2]
    dsimp only
    have h2' : w1 / r + crop.y ≤ H := not_lt.mp h2
    refine ⟨?_, rfl, rfl, by linarith, by linarith⟩
    rw [div_div_eq_mul_div, mul_div_cancel_left₀ r hw1ne]

/-- C1: when the aspect ratio is locked to `r > 0`, a resize drag update (the
`se` handle is the only resize handle the component renders) yields a region
with `width / height = r` exactly — hence within every positive tolerance —
including after the boundary re-clamping that follows the ratio fix-up.  The
hypotheses are the data-model invariants of a valid starting region. -/
theorem crop_ratio_locked_after_resize (W H r : ℚ) (start : StartPos)
    (crop : CropArea) (clientX clientY : ℚ) (hr : 0 < r)
    (hxw : crop.x + crop.width ≤ W) (hw : 50 ≤ crop.width)
    (hyh : crop.y + crop.height ≤ H) (hh : 50 ≤ crop.height) :
    (handlePointerMove W H r true "se" start crop clientX clientY).width /
      (handlePointerMove W H r true "se" start crop clientX clientY).height = r ∧
    ∀ eps : ℚ, 0 < eps →
      |(handlePointerMove W H r true "se" start crop clientX clientY).width /
        (handlePointerMove W H r true "se" start crop clientX clientY).height - r| < eps := by
  rw [hpm_se_ratio_eq W H r (ne_of_gt hr) start crop clientX clientY]
  have hkey := seRatioPath_props W H r crop
    (max 50 (min (W - crop.x) (start.cw + (clientX - start.x)))) hr
    (max_le (by linarith) (min_le_left _ _)) (le_max_left _ _) (by linarith)
  refine ⟨hkey.1, fun eps heps => ?_⟩
  rw [hkey.1]
  simpa using heps

/-- C1 witness: a concrete ratio-locked resize in a 1000 × 1000 container with
ratio 1 keeps the region square. -/
theorem crop_ratio_locked_after_resize_witness :
    (handlePointerMove 1000 1000 1 true "se" ⟨0, 0, 100, 100, 200, 200⟩
        ⟨100, 100, 200, 200, CropUnit.px⟩ 50 50).width /
      (handlePointerMove 1000 1000 1 true "se" ⟨0, 0, 100, 100, 200, 200⟩
        ⟨100, 100, 200, 200, CropUnit.px⟩ 50 50).height = 1 ∧
    ∀ eps : ℚ, 0 < eps →
      |(handlePointerMove 1000 1000 1 true "se" ⟨0, 0, 100, 100, 200, 200⟩
          ⟨100, 100, 200, 200, CropUnit.px⟩ 50 50).width /
        (handlePointerMove 1000 1000 1 true "se" ⟨0, 0, 100, 100, 200, 200⟩
          ⟨100, 100, 200, 200, CropUnit.px⟩ 50 50).height - 1| < eps :=
  crop_ratio_locked_after_resize 1000 1000 1 ⟨0, 0, 100, 100, 200, 200⟩
    ⟨100, 100, 200, 200, CropUnit.px⟩ 50 50 (by norm_num) (by norm_num)
    (by norm_num) (by norm_num) (by norm_num)

/-- C2: a drag update (move or resize) applied to a valid region keeps the
region inside the container `[0, W] × [0, H]`.  The hypotheses are the
data-model invariants of the starting region; the locked ratio is either 0
(free) or positive, as produced by the aspect-ratio presets. -/
theorem crop_stays_in_container (W H r : ℚ) (handle : String) (start : StartPos)
    (crop : CropArea) (clientX clientY : ℚ)
    (hhandle : handle = "move" ∨ handle = "se") (hr : 0 ≤ r)
    (hx : 0 ≤ crop.x) (hy : 0 ≤ crop.y)
    (hxw : crop.x + crop.width ≤ W) (hw : 50 ≤ crop.width)
    (hyh : crop.y + crop.height ≤ H) (hh : 50 ≤ crop.height) :
    0 ≤ (handlePointerMove W H r true handle start crop clientX clientY).x ∧
    0 ≤ (handlePointerMove W H r true handle start crop clientX clientY).y ∧
    (handlePointerMove W H r true handle start crop clientX clientY).x +
      (handlePointerMove W H r true handle start crop clientX clientY).width ≤ W ∧
    (handlePointerMove W H r true handle start crop clientX clientY).y +
      (handlePointerMove W H r true handle start crop clientX clientY).height ≤ H := by
  rcases hhandle with hm | hs
  · subst hm
    rw [hpm_move_eq]
    have hxle : max 0 (min (W - crop.width) (start.cx + (clientX - start.x))) ≤ W - crop.width :=
      max_le (by linarith) (min_le_left _ _)
    have hyle : max 0 (min (H - crop.height) (start.cy + (clientY - start.y))) ≤ H - crop.height :=
      max_le (by linarith) (min_le_left _ _)
    refine ⟨le_max_left _ _, le_max_left _ _, ?_, ?_⟩ <;> dsimp only <;> linarith
  · subst hs
    rcases eq_or_lt_of_le hr with hz | hpos
    · subst hz
      rw [hpm_se_free_eq]
      have h1 : max 50 (min (W - crop.x) (start.cw + (clientX - start.x))) ≤ W - crop.x :=
        max_le (by linarith) (min_le_left _ _)
      have h2 : max 50 (min (H - crop.y) (start.ch + (clientY - start.y))) ≤ H - crop.y :=
        max_le (by linarith) (min_le_left _ _)
      refine ⟨?_, ?_, ?_, ?_⟩ <;> dsimp only <;> linarith
    · rw [hpm_se_ratio_eq W H r (ne_of_gt hpos) start crop clientX clientY]
      have hkey := seRatioPath_props W H r crop
        (max 50 (min (W - crop.x) (start.cw + (clientX - start.x)))) hpos
        (max_le (by linarith) (min_le_left _ _)) (le_max_left _ _) (by linarith)
      refine ⟨?_, ?_, hkey.2.2.2.1, hkey.2.2.2.2⟩
      · rw [hkey.2.1]
        exact hx
      · rw [hkey.2.2.1]
        exact hy

/-- C2 witness: a concrete move drag in a 1000 × 1000 container stays inside
the container. -/
theorem crop_stays_in_container_witness :
    0 ≤ (handlePointerMove 1000 1000 0 true "move" ⟨0, 0, 100, 100, 200, 200⟩
      ⟨100, 100, 200, 200, CropUnit.px⟩ 2000 2000).x ∧
    0 ≤ (handlePointerMove 1000 1000 0 true "move" ⟨0, 0, 100, 100, 200, 200⟩
      ⟨100, 100, 200, 200, CropUnit.px⟩ 2000 2000).y ∧
    (handlePointerMove 1000 1000 0 true "move" ⟨0, 0, 100, 100, 200, 200⟩
      ⟨100, 100, 200, 200, CropUnit.px⟩ 2000 2000).x +
      (handlePointerMove 1000 1000 0 true "move" ⟨0, 0, 100, 100, 200, 200⟩
        ⟨100, 100, 200, 200, CropUnit.px⟩ 2000 2000).width ≤ 1000 ∧
    (handlePointerMove 1000 1000 0 true "move" ⟨0, 0, 100, 100, 200, 200⟩
      ⟨100, 100, 200, 200, CropUnit.px⟩ 2000 2000).y +
      (handlePointerMove 1000 1000 0 true "move" ⟨0, 0, 100, 100, 200, 200⟩
        ⟨100, 100, 200, 200, CropUnit.px⟩ 2000 2000).height ≤ 1000 :=
  crop_stays_in_container 1000 1000 0 "move" ⟨0, 0, 100, 100, 200, 200⟩
    ⟨100, 100, 200, 200, CropUnit.px⟩ 2000 2000 (Or.inl rfl) (by norm_num)
    (by norm_num) (by norm_num) (by norm_num) (by norm_num) (by norm_num) (by norm_num)

/-- C3 (amended): the minimum size 50 is enforced only on the dimensions the
drag handle controls directly during a free-ratio resize: with `aspectRatio = 0`
and the `se` handle both resulting dimensions are at least 50, for any input
region and any pointer position. -/
theorem crop_min_size_free_resize (W H : ℚ) (start : StartPos) (crop : CropArea)
    (clientX clientY : ℚ) :
    50 ≤ (handlePointerMove W H 0 true "se" start crop clientX clientY).width ∧
    50 ≤ (handlePointerMove W H 0 true "se" start crop clientX clientY).height := by
  rw [hpm_se_free_eq]
  exact ⟨le_max_left _ _, le_max_left _ _⟩

/-- C6: crop initialisation yields the centred 80 % rectangle: height-bound
(`initH = H*0.8`, `initW = initH*ratio`) when `W/H > ratio ≠ 0`, width-bound
(`initW = W*0.8`, `initH = initW/ratio`) otherwise, both dimensions 80 % when
the ratio is 0; the origin is `((W-initW)/2, (H-initH)/2)`. -/
theorem initCrop_centered_80pct (W H r : ℚ) (hW : 0 < W) (hH : 0 < H) :
    (initCrop W H r).x = (W - (initCrop W H r).width) / 2 ∧
    (initCrop W H r).y = (H - (initCrop W H r).height) / 2 ∧
    (r = 0 → (initCrop W H r).width = W * (4 / 5) ∧
      (initCrop W H r).height = H * (4 / 5)) ∧
    (r ≠ 0 → (W / H > r →
        (initCrop W H r).height = H * (4 / 5) ∧
        (initCrop W H r).width = (initCrop W H r).height * r) ∧
      (¬ W / H > r →
        (initCrop W H r).width = W * (4 / 5) ∧
        (initCrop W H r).height = (initCrop W H r).width / r)) := by
  unfold initCrop
  by_cases hr : r = 0 <;> by_cases hwh : W / H > r <;>
    simp [hr, hwh]

/-- C6 witness: the theorem instantiated at a 1000 × 800 container with the
16:9 locked ratio. -/
theorem initCrop_centered_80pct_witness :
    (initCrop 1000 800 (16 / 9)).x = (1000 - (initCrop 1000 800 (16 / 9)).width) / 2 ∧
    (initCrop 1000 800 (16 / 9)).y = (800 - (initCrop 1000 800 (16 / 9)).height) / 2 ∧
    ((16 : ℚ) / 9 = 0 → (initCrop 1000 800 (16 / 9)).width = 1000 * (4 / 5) ∧
      (initCrop 1000 800 (16 / 9)).height = 800 * (4 / 5)) ∧
    ((16 : ℚ) / 9 ≠ 0 → ((1000 : ℚ) / 800 > 16 / 9 →
        (initCrop 1000 800 (16 / 9)).height = 800 * (4 / 5) ∧
        (initCrop 1000 800 (16 / 9)).width = (initCrop 1000 800 (16 / 9)).height * (16 / 9)) ∧
      (¬ (1000 : ℚ) / 800 > 16 / 9 →
        (initCrop 1000 800 (16 / 9)).width = 1000 * (4 / 5) ∧
        (initCrop 1000 800 (16 / 9)).height = (initCrop 1000 800 (16 / 9)).width / (16 / 9))) :=
  initCrop_centered_80pct 1000 800 (16 / 9) (by norm_num) (by norm_num)

/-- C3 counterexample: in a 10 × 10 container the initialisation effect
produces a crop region of width 8 < 50, so the minimum-size invariant does not
hold for the region produced by initialisation. -/
theorem initCrop_min_size_counterexample :
    (initCrop 10 10 0).width < 50 := by
  norm_num [initCrop]

/-- `ExportFormat` from `types.ts`. -/
inductive ExportFormat where
  | png
  | jpeg
  | webp
deriving DecidableEq, Repr

/-- `ProcessingOptions` from `types.ts`. -/
structure ProcessingOptions where
  scale : ℚ
  maintainAspect : Bool
  crop : Option CropArea
  format : ExportFormat
  quality : ℚ
deriving DecidableEq, Repr

/-- Source sub-rectangle `(sx, sy, sw, sh)` of `processImage`. -/
structure SourceRect where
  sx : ℚ
  sy : ℚ
  sw : ℚ
  sh : ℚ
deriving DecidableEq, Repr

/-- Step 1 of `processImage` (`imageProcessor.ts`): resolve the source
sub-rectangle from `options.crop`; percentage units are scaled by the image
dimensions over 100, pixel units pass through, absent crop means the whole
image. -/
def resolveSourceRect (imgW imgH : ℚ) (crop : Option CropArea) : SourceRect :=
  match crop with
  | none => ⟨0, 0, imgW, imgH⟩
  | some c =>
    match c.unit with
    | CropUnit.pct =>
        ⟨c.x / 100 * imgW, c.y / 100 * imgH, c.width / 100 * imgW, c.height / 100 * imgH⟩
    | CropUnit.px => ⟨c.x, c.y, c.width, c.height⟩

/-- The scale factor actually used by `processImage`:
`const scale = options.scale || 1` — the JavaScript `||` replaces the falsy
value 0 by 1. -/
def effectiveScale (opts : ProcessingOptions) : ℚ :=
  if opts.scale = 0 then 1 else opts.scale

/-- Step 2 of `processImage`: destination canvas dimensions
`dw = sw * scale` and `dh = maintainAspect ? sh * scale : sh * scale`
(both branches of the flag are written identically in the source). -/
def destDims (imgW imgH : ℚ) (opts : ProcessingOptions) : ℚ × ℚ :=
  let src := resolveSourceRect imgW imgH opts.crop
  let scale := effectiveScale opts
  (src.sw * scale, if opts.maintainAspect then src.sh * scale else src.sh * scale)

/-- Result geometry of `expandImageCanvas` (`imageProcessor.ts`): the new
canvas size and the centred draw offset of the source image. -/
structure ExpandResult where
  newW : ℚ
  newH : ℚ
  dx : ℚ
  dy : ℚ
deriving DecidableEq, Repr

/-- `expandImageCanvas` geometry: keep the height and widen when the target
ratio exceeds the current ratio, otherwise keep the width and heighten; the
source is drawn at the centring offset `((newW - w) / 2, (newH - h) / 2)`. -/
def expandImageCanvas (imgW imgH aspectRatio : ℚ) : ExpandResult :=
  let currentRatio := imgW / imgH
  let newW := if aspectRatio > currentRatio then imgH * aspectRatio else imgW
  let newH := if aspectRatio > currentRatio then imgH else imgW / aspectRatio
  ⟨newW, newH, (newW - imgW) / 2, (newH - imgH) / 2⟩

/-- C4: for every image and options with `scale` in the documented range (in
particular non-zero), the destination dimensions are the source sub-rectangle
scaled by the same factor on both axes, and flipping `maintainAspect` leaves
the output unchanged — the two branches of the flag compute the same result. -/
theorem processImage_uniform_scale (imgW imgH : ℚ) (opts : ProcessingOptions)
    (hs : opts.scale ≠ 0) :
    destDims imgW imgH opts =
      ((resolveSourceRect imgW imgH opts.crop).sw * opts.scale,
        (resolveSourceRect imgW imgH opts.crop).sh * opts.scale) ∧
    destDims imgW imgH { opts with maintainAspect := true } =
      destDims imgW imgH { opts with maintainAspect := false } := by
  constructor
  · simp [destDims, effectiveScale, hs]
  · simp [destDims, effectiveScale]

/-- C4 witness: a 640 × 480 image at scale 2 with no crop. -/
theorem processImage_uniform_scale_witness :
    destDims 640 480 ⟨2, true, none, ExportFormat.png, 1⟩ =
      ((resolveSourceRect 640 480 none).sw * 2,
        (resolveSourceRect 640 480 none).sh * 2) ∧
    destDims 640 480 ⟨2, true, none, ExportFormat.png, 1⟩ =
      destDims 640 480 ⟨2, false, none, ExportFormat.png, 1⟩ := by
  have h := processImage_uniform_scale 640 480
    ⟨2, true, none, ExportFormat.png, 1⟩ (by norm_num)
  exact h

/-- C9: with `scale = 0` (outside the documented range) the `options.scale || 1`
fallback makes the factor 1, so the destination dimensions equal the source
sub-rectangle's dimensions — the output is not zero-sized. -/
theorem processImage_zero_scale_fallback (imgW imgH : ℚ) (opts : ProcessingOptions)
    (hs : opts.scale = 0) :
    destDims imgW imgH opts =
      ((resolveSourceRect imgW imgH opts.crop).sw,
        (resolveSourceRect imgW imgH opts.crop).sh) := by
  simp [destDims, effectiveScale, hs]

/-- C9 witness: the fallback at a concrete 800 × 600 image with scale 0. -/
theorem processImage_zero_scale_fallback_witness :
    destDims 800 600 ⟨0, true, none, ExportFormat.png, 1⟩ =
      ((resolveSourceRect 800 600 none).sw, (resolveSourceRect 800 600 none).sh) :=
  processImage_zero_scale_fallback 800 600 ⟨0, true, none, ExportFormat.png, 1⟩ rfl

/-- C7: the source sub-rectangle is the full image when `crop` is absent, the
percentage-converted rectangle for unit `%`, and the unchanged rectangle for
unit `px`; cropping a 1000 × 800 image to `(100, 100, 400, 400)` px at scale
0.5 yields a 200 × 200 output. -/
theorem processImage_source_rect (imgW imgH : ℚ) (c : CropArea) :
    resolveSourceRect imgW imgH none = ⟨0, 0, imgW, imgH⟩ ∧
    (c.unit = CropUnit.pct →
      resolveSourceRect imgW imgH (some c) =
        ⟨c.x / 100 * imgW, c.y / 100 * imgH, c.width / 100 * imgW, c.height / 100 * imgH⟩) ∧
    (c.unit = CropUnit.px →
      resolveSourceRect imgW imgH (some c) = ⟨c.x, c.y, c.width, c.height⟩) ∧
    destDims 1000 800
        ⟨1 / 2, true, some ⟨100, 100, 400, 400, CropUnit.px⟩, ExportFormat.png, 1⟩ =
      (200, 200) := by
  refine ⟨rfl, fun hu => ?_, fun hu => ?_, ?_⟩
  · simp [resolveSourceRect, hu]
  · simp [resolveSourceRect, hu]
  · norm_num [destDims, resolveSourceRect, effectiveScale]

/-- C7 witness: the percentage branch of the theorem at a concrete crop area
of a 200 × 100 image. -/
theorem processImage_source_rect_witness :
    resolveSourceRect 200 100 (some ⟨10, 20, 50, 30, CropUnit.pct⟩) =
      ⟨10 / 100 * 200, 20 / 100 * 100, 50 / 100 * 200, 30 / 100 * 100⟩ :=
  (processImage_source_rect 200 100 ⟨10, 20, 50, 30, CropUnit.pct⟩).2.1 rfl

/-- C5: `expandImageCanvas` produces a canvas whose ratio equals the target
exactly (hence within every tolerance), keeping the source height and widening
when the target exceeds the source ratio and keeping the source width and
heightening otherwise, with the source drawn at the centring offset
`((newW - w) / 2, (newH - h) / 2)`. -/
theorem expandImageCanvas_correct (imgW imgH ar : ℚ) (hW : 0 < imgW)
    (hH : 0 < imgH) (har : 0 < ar) :
    (expandImageCanvas imgW imgH ar).newW / (expandImageCanvas imgW imgH ar).newH = ar ∧
    (ar > imgW / imgH →
      (expandImageCanvas imgW imgH ar).newH = imgH ∧
        imgW ≤ (expandImageCanvas imgW imgH ar).newW) ∧
    (¬ ar > imgW / imgH →
      (expandImageCanvas imgW imgH ar).newW = imgW ∧
        imgH ≤ (expandImageCanvas imgW imgH ar).newH) ∧
    (expandImageCanvas imgW imgH ar).dx =
      ((expandImageCanvas imgW imgH ar).newW - imgW) / 2 ∧
    (expandImageCanvas imgW imgH ar).dy =
      ((expandImageCanvas imgW imgH ar).newH - imgH) / 2 := by
  have heq : expandImageCanvas imgW imgH ar =
      if ar > imgW / imgH then
        (⟨imgH * ar, imgH, (imgH * ar - imgW) / 2, (imgH - imgH) / 2⟩ : ExpandResult)
      else
        ⟨imgW, imgW / ar, (imgW - imgW) / 2, (imgW / ar - imgH) / 2⟩ := by
    unfold expandImageCanvas
    by_cases h : ar > imgW / imgH <;> simp [h]
  rw [heq]
  by_cases h : ar > imgW / imgH
  · rw [if_pos h]
    dsimp only
    refine ⟨mul_div_cancel_left₀ ar (ne_of_gt hH), fun _ => ⟨rfl, ?_⟩,
      fun hc => absurd h hc, rfl, rfl⟩
    have h1 : imgW / imgH * imgH < ar * imgH := mul_lt_mul_of_pos_right h hH
    rw [div_mul_cancel₀ imgW (ne_of_gt hH)] at h1
    nlinarith [h1]
  · rw [if_neg h]
    dsimp only
    refine ⟨?_, fun hc => absurd hc h, fun _ => ⟨rfl, ?_⟩, rfl, rfl⟩
    · rw [div_div_eq_mul_div, mul_div_cancel_left₀ ar (ne_of_gt hW)]
    · have h' : ar ≤ imgW / imgH := not_lt.mp h
      rw [le_div_iff₀ har]
      have h2 : imgH * ar ≤ imgH * (imgW / imgH) :=
        mul_le_mul_of_nonneg_left h' (le_of_lt hH)
      have h3 : imgH * (imgW / imgH) = imgW := by
        rw [mul_comm, div_mul_cancel₀ imgW (ne_of_gt hH)]
      linarith

/-- C5 witness: expanding an 800 × 600 image to ratio 16:9 keeps the height,
widens, and satisfies the exact ratio and centring equations. -/
theorem expandImageCanvas_correct_witness :
    (expandImageCanvas 800 600 (16 / 9)).newW / (expandImageCanvas 800 600 (16 / 9)).newH
        = 16 / 9 ∧
    ((16 : ℚ) / 9 > 800 / 600 →
      (expandImageCanvas 800 600 (16 / 9)).newH = 600 ∧
        800 ≤ (expandImageCanvas 800 600 (16 / 9)).newW) ∧
    (¬ (16 : ℚ) / 9 > 800 / 600 →
      (expandImageCanvas 800 600 (16 / 9)).newW = 800 ∧
        600 ≤ (expandImageCanvas 800 600 (16 / 9)).newH) ∧
    (expandImageCanvas 800 600 (16 / 9)).dx =
      ((expandImageCanvas 800 600 (16 / 9)).newW - 800) / 2 ∧
    (expandImageCanvas 800 600 (16 / 9)).dy =
      ((expandImageCanvas 800 600 (16 / 9)).newH - 600) / 2 :=
  expandImageCanvas_correct 800 600 (16 / 9) (by norm_num) (by norm_num) (by norm_num)

/-- `MAX_FILE_SIZE_MB` from `constants.ts`. -/
def MAX_FILE_SIZE_MB : ℕ := 10

/-- `ALLOWED_TYPES` from `constants.ts`. -/
def ALLOWED_TYPES : List String := ["image/jpeg", "image/png", "image/webp"]

/-- `AppMode` from `types.ts`. -/
inductive AppMode where
  | UPLOAD
  | EDIT
  | PREVIEW
  | MASK
deriving DecidableEq, Repr

/-- The slice of the `App` component state that `handleFileUpload` touches:
the current mode, whether an image state exists, and the error message. -/
structure UploadState where
  mode : AppMode
  hasImage : Bool
  errorMessage : Option String
deriving DecidableEq, Repr

/-- An uploaded file as seen by the guard: its MIME type and byte size. -/
structure UploadFile where
  type : String
  size : ℕ
deriving DecidableEq, Repr

/-- Error message of the size guard, the template literal of `App.tsx`. -/
def fileTooLargeMsg : String :=
  "File too large. Max size is " ++ toString MAX_FILE_SIZE_MB ++ "MB."

/-- `handleFileUpload` from `App.tsx` (lines 177–208): reject unsupported MIME
types, reject files over `MAX_FILE_SIZE_MB` MiB, otherwise create the image
state and switch to `EDIT` mode (the successful `img.onload` path). -/
def handleFileUpload (s : UploadState) (file : UploadFile) : UploadState :=
  if ¬ (ALLOWED_TYPES.contains file.type = true) then
    { s with errorMessage := some "Unsupported file format. Please use JPG, PNG, or WEBP." }
  else if file.size > MAX_FILE_SIZE_MB * 1024 * 1024 then
    { s with errorMessage := some fileTooLargeMsg }
  else
    { mode := AppMode.EDIT, hasImage := true, errorMessage := none }

/-- C8: starting from the upload screen with no image, a file is accepted
(image state created) iff its MIME type is one of jpeg/png/webp and its size
is at most 10 MiB; otherwise the app stays on the upload screen with no image
state and a user-visible error message. -/
theorem upload_boundary (s : UploadState) (f : UploadFile)
    (hmode : s.mode = AppMode.UPLOAD) (himg : s.hasImage = false) :
    ((handleFileUpload s f).hasImage = true ↔
      (ALLOWED_TYPES.contains f.type = true ∧ f.size ≤ MAX_FILE_SIZE_MB * 1024 * 1024)) ∧
    (¬ (ALLOWED_TYPES.contains f.type = true ∧ f.size ≤ MAX_FILE_SIZE_MB * 1024 * 1024) →
      (handleFileUpload s f).mode = AppMode.UPLOAD ∧
      (handleFileUpload s f).hasImage = false ∧
      ∃ m, (handleFileUpload s f).errorMessage = some m) := by
  unfold handleFileUpload
  by_cases ht : ALLOWED_TYPES.contains f.type = true
  · by_cases hsz : f.size > MAX_FILE_SIZE_MB * 1024 * 1024
    · rw [if_neg (by simpa using ht), if_pos hsz]
      refine ⟨?_, fun _ => ⟨hmode, himg, ⟨_, rfl⟩⟩⟩
      rw [himg]
      simp only [Bool.false_eq_true, false_iff]
      rintro ⟨-, hle⟩
      exact absurd hle (not_le.mpr hsz)
    · rw [if_neg (by simpa using ht), if_neg hsz]
      refine ⟨?_, fun hc => absurd ⟨ht, not_lt.mp hsz⟩ hc⟩
      exact iff_of_true rfl ⟨ht, not_lt.mp hsz⟩
  · rw [if_pos (by simpa using ht)]
    refine ⟨?_, fun _ => ⟨hmode, himg, ⟨_, rfl⟩⟩⟩
    rw [himg]
    simp only [Bool.false_eq_true, false_iff]
    rintro ⟨hmem, -⟩
    exact ht hmem

/-- C8 witness: a 1000-byte `image/gif` file is rejected — the mode stays at
the upload screen, no image state is created, and an error message is set. -/
theorem upload_boundary_witness :
    (handleFileUpload ⟨AppMode.UPLOAD, false, none⟩ ⟨"image/gif", 1000⟩).mode
        = AppMode.UPLOAD ∧
    (handleFileUpload ⟨AppMode.UPLOAD, false, none⟩ ⟨"image/gif", 1000⟩).hasImage
        = false ∧
    ∃ m, (handleFileUpload ⟨AppMode.UPLOAD, false, none⟩
        ⟨"image/gif", 1000⟩).errorMessage = some m :=
  (upload_boundary ⟨AppMode.UPLOAD, false, none⟩ ⟨"image/gif", 1000⟩ rfl rfl).2
    (by intro hc; exact absurd hc.1 (by decide))

/-- `Point` from `types.ts`. -/
structure Point where
  x : ℚ
  y : ℚ
deriving DecidableEq, Repr

/-- `Stroke` from `types.ts`: polyline, line width and colour. -/
structure Stroke where
  points : List Point
  size : ℚ
  color : String
deriving DecidableEq, Repr

/-- The fixed stroke colour written by `BrushOverlay.tsx` on pointer-up. -/
def brushStrokeColor : String := "rgba(255, 50, 50, 0.5)"

/-- The component state of `BrushOverlay.tsx` that the pointer handlers touch:
`isDrawing`, `currentPoints` and the persisted `strokes`. -/
structure BrushState where
  isDrawing : Bool
  currentPoints : List Point
  strokes : List Stroke
deriving DecidableEq, Repr

/-- `handlePointerDown` of `BrushOverlay.tsx`: start drawing with the single
pointer-down point. -/
def handleBrushPointerDown (s : BrushState) (p : Point) : BrushState :=
  { s with isDrawing := true, currentPoints := [p] }

/-- `handlePointerMove` of `BrushOverlay.tsx`: while drawing, append the
current point unconditionally. -/
def handleBrushPointerMove (s : BrushState) (p : Point) : BrushState :=
  if s.isDrawing then { s with currentPoints := s.currentPoints ++ [p] } else s

/-- `handlePointerUp` of `BrushOverlay.tsx`: stop drawing and, when the active
stroke is non-empty, persist it with the current `brushSize` prop and the
fixed colour; the active stroke is cleared regardless. -/
def handleBrushPointerUp (s : BrushState) (brushSize : ℚ) : BrushState :=
  if !s.isDrawing then s
  else
    { isDrawing := false
      currentPoints := []
      strokes :=
        if s.currentPoints.length > 0 then
          s.strokes ++ [⟨s.currentPoints, brushSize, brushStrokeColor⟩]
        else s.strokes }

/-- A pointer event delivered to the brush overlay; `up` carries the value of
the `brushSize` prop at the time of the event. -/
inductive BrushEvent where
  | down (p : Point)
  | move (p : Point)
  | up (brushSize : ℚ)
deriving DecidableEq, Repr

/-- One pointer event dispatched to the brush overlay's handlers. -/
def brushStep (s : BrushState) (e : BrushEvent) : BrushState :=
  match e with
  | BrushEvent.down p => handleBrushPointerDown s p
  | BrushEvent.move p => handleBrushPointerMove s p
  | BrushEvent.up bs => handleBrushPointerUp s bs

/-- The brush overlay state after a sequence of pointer events, starting from
the component's initial state (not drawing, no points, no strokes). -/
def runBrush (es : List BrushEvent) : BrushState :=
  es.foldl brushStep ⟨false, [], []⟩

lemma brushStep_strokes_sound (s : BrushState) (e : BrushEvent) (st : Stroke)
    (hst : st ∈ (brushStep s e).strokes) :
    st ∈ s.strokes ∨
      (st.points ≠ [] ∧ st.color = brushStrokeColor) := by
  cases e with
  | down p => exact Or.inl hst
  | move p =>
    have hst' : st ∈ (handleBrushPointerMove s p).strokes := hst
    unfold handleBrushPointerMove at hst'
    by_cases hd : s.isDrawing
    · rw [if_pos hd] at hst'
      exact Or.inl hst'
    · rw [if_neg hd] at hst'
      exact Or.inl hst'
  | up bs =>
    have hst : st ∈ (handleBrushPointerUp s bs).strokes := hst
    unfold handleBrushPointerUp at hst
    by_cases hd : s.isDrawing
    · rw [hd] at hst
      simp only [Bool.not_true, Bool.false_eq_true, if_false] at hst
      by_cases hn : s.currentPoints.length > 0
      · rw [if_pos hn] at hst
        rcases List.mem_append.mp hst with hmem | hnew
        · exact Or.inl hmem
        · right
          rcases List.mem_singleton.mp hnew with rfl
          exact ⟨List.length_pos.mp hn, rfl⟩
      · rw [if_neg hn] at hst
        exact Or.inl hst
    · rw [Bool.not_eq_true] at hd
      rw [hd] at hst
      simp only [Bool.not_false, if_true] at hst
      exact Or.inl hst

lemma foldl_brush_strokes_sound (es : List BrushEvent) (s : BrushState)
    (hinv : ∀ st ∈ s.strokes, st.points ≠ [] ∧ st.color = brushStrokeColor) :
    ∀ st ∈ (es.foldl brushStep s).strokes,
      st.points ≠ [] ∧ st.color = brushStrokeColor := by
  induction es generalizing s with
  | nil => exact hinv
  | cons e es ih =>
    refine ih (brushStep s e) ?_
    intro st hst
    rcases brushStep_strokes_sound s e st hst with hold | hnew
    · exact hinv st hold
    · exact hnew

/-- C10: every stroke persisted by the brush overlay has at least one point
and carries the fixed colour `rgba(255, 50, 50, 0.5)` — never a colour from
user input; a stroke persisted by a pointer-up additionally carries the brush
size in effect when that gesture ended. -/
theorem brush_persisted_strokes (es : List BrushEvent) (s : BrushState)
    (bs : ℚ) :
    (∀ st ∈ (runBrush es).strokes,
      st.points ≠ [] ∧ st.color = brushStrokeColor) ∧
    (∀ st ∈ (handleBrushPointerUp s bs).strokes,
      st ∈ s.strokes ∨
        (st.points ≠ [] ∧ st.color = brushStrokeColor ∧ st.size = bs)) := by
  constructor
  · exact foldl_brush_strokes_sound es ⟨false, [], []⟩ (by intro st hst; cases hst)
  · intro st hst
    unfold handleBrushPointerUp at hst
    by_cases hd : s.isDrawing
    · rw [hd] at hst
      simp only [Bool.not_true, Bool.false_eq_true, if_false] at hst
      by_cases hn : s.currentPoints.length > 0
      · rw [if_pos hn] at hst
        rcases List.mem_append.mp hst with hmem | hnew
        · exact Or.inl hmem
        · right
          rcases List.mem_singleton.mp hnew with rfl
          exact ⟨List.length_pos.mp hn, rfl, rfl⟩
      · rw [if_neg hn] at hst
        exact Or.inl hst
    · rw [Bool.not_eq_true] at hd
      rw [hd] at hst
      simp only [Bool.not_false, if_true] at hst
      exact Or.inl hst

/-- C10 witness: a concrete down–move–up gesture persists exactly one stroke,
which is non-empty, has the fixed colour, and records the brush size 40 of the
closing pointer-up. -/
theorem brush_persisted_strokes_witness :
    (∀ st ∈ (runBrush [BrushEvent.down ⟨1, 2⟩, BrushEvent.move ⟨3, 4⟩,
        BrushEvent.up 40]).strokes,
      st.points ≠ [] ∧ st.color = brushStrokeColor) ∧
    (∀ st ∈ (handleBrushPointerUp ⟨true, [⟨1, 2⟩], []⟩ 40).strokes,
      st ∈ ([] : List Stroke) ∨
        (st.points ≠ [] ∧ st.color = brushStrokeColor ∧ st.size = 40)) :=
  brush_persisted_strokes [BrushEvent.down ⟨1, 2⟩, BrushEvent.move ⟨3, 4⟩,
    BrushEvent.up 40] ⟨true, [⟨1, 2⟩], []⟩ 40

/-- C2 counterexample: a 10 × 10 region at (60, 60) starts inside the
100 × 100 container, yet a free-ratio `se` resize with zero pointer delta
clamps the width up to the 50-unit minimum and the region leaves the
container (x + width = 110 > 100): the claim fails for regions that start
inside but violate the minimum-size invariant. -/
theorem crop_stays_in_container_counterexample :
    (0 ≤ (⟨60, 60, 10, 10, CropUnit.px⟩ : CropArea).x ∧
      0 ≤ (⟨60, 60, 10, 10, CropUnit.px⟩ : CropArea).y ∧
      (⟨60, 60, 10, 10, CropUnit.px⟩ : CropArea).x +
        (⟨60, 60, 10, 10, CropUnit.px⟩ : CropArea).width ≤ 100 ∧
      (⟨60, 60, 10, 10, CropUnit.px⟩ : CropArea).y +
        (⟨60, 60, 10, 10, CropUnit.px⟩ : CropArea).height ≤ 100) ∧
    ¬ ((handlePointerMove 100 100 0 true "se" ⟨0, 0, 60, 60, 10, 10⟩
          ⟨60, 60, 10, 10, CropUnit.px⟩ 0 0).x +
        (handlePointerMove 100 100 0 true "se" ⟨0, 0, 60, 60, 10, 10⟩
          ⟨60, 60, 10, 10, CropUnit.px⟩ 0 0).width ≤ 100) := by
  constructor
  · norm_num
  · rw [hpm_se_free_eq]
    norm_num
